import Mathlib

/-!
Verification of the `pinger.py` network diagnostics tool.

This file gives a shallow embedding of the pure cores of the functions in
`src/pinger.py` (settings load/save/merge, the ping-output parser, DNS-string
validation via `socket.inet_aton`, certificate-lifetime computation, the
TLS-version diagnostic, and the per-host status pipeline), together with
theorems settling the specified properties.  External effects (file reads,
subprocess execution, sockets) are modelled by passing their outcomes as
explicit arguments; the Python runtime primitives the source calls
(`re.findall`, `float`, `json` values, dictionary operations, `inet_aton`,
`strptime`) are embedded with their documented semantics, which were checked
against a CPython 3 / glibc platform.
-/

namespace Pinger

/-! ## Character helpers -/

/-- Whitespace characters, as matched by the regex class backslash-s and by C
`isspace` (ASCII range). -/
def isSpaceChar (c : Char) : Bool :=
  c == ' ' || c == '\t' || c == '\n' || c == '\r' || c == '\x0b' || c == '\x0c'

/-- Characters matched by the regex class `[\d.]`: decimal digits and the dot. -/
def isDigitDot (c : Char) : Bool :=
  c.isDigit || c == '.'

/-- Numeric value of a decimal digit character. -/
def digitVal (c : Char) : Nat :=
  c.toNat - '0'.toNat

/-- Decimal value of a list of digit characters (most significant first). -/
def decVal (l : List Char) : Nat :=
  l.foldl (fun a c => a * 10 + digitVal c) 0

/-! ## Embedding of `float` on regex captures (C1)

The captures of `time=([\d.]+)\s?ms` consist of digits and dots only.  CPython
`float` accepts such a string exactly when it has at least one digit and at
most one dot; the value is the usual decimal value.  On any other
digits-and-dots string (such as "." or "1.2.3"), `float` raises `ValueError`. -/

/-- Value of `float(s)` for a digits-and-dots string `s`, or `none` when
CPython `float` raises `ValueError` on it. -/
def parsePyFloat (l : List Char) : Option ℚ :=
  if l.all isDigitDot && l.any Char.isDigit && l.count '.' ≤ 1 then
    match l.splitOn '.' with
    | [ip] => some (decVal ip)
    | [ip, fp] => some ((decVal ip : ℚ) + (decVal fp : ℚ) / ((10 ^ fp.length : ℕ) : ℚ))
    | _ => none
  else none

/-! ## Embedding of `re.findall(r'time=([\d.]+)\s?ms', output)` (C1)

A match starts with the literal `time=`, then a maximal nonempty run of
digits-and-dots (the greedy `[\d.]+`; shortening the run can never help the
rest of the pattern, since a digit or dot matches neither `\s` nor 'm'),
then an optional whitespace character, then the literal `ms`.  `findall`
scans left to right and resumes after the end of each match.  The scan is
written with explicit fuel (one unit per character plus one) so that it is
structurally recursive; every step consumes at least one character, so the
fuel never runs out on the initial call. -/

/-- Match the literal `ms` at the head of the input, returning the rest. -/
def matchMs : List Char → Option (List Char)
  | 'm' :: 's' :: rest => some rest
  | _ => none

/-- Match `\s?ms`: an optional whitespace character followed by `ms`. -/
def matchOptSpaceMs : List Char → Option (List Char)
  | [] => none
  | c :: rest => if isSpaceChar c then matchMs rest else matchMs (c :: rest)

/-- Try to match `time=([\d.]+)\s?ms` at the head of the input.  On success,
return the capture (the digits-and-dots run) and the input remaining after
the whole match. -/
def tryMatch : List Char → Option (List Char × List Char)
  | 't' :: 'i' :: 'm' :: 'e' :: '=' :: rest =>
    let cap := rest.takeWhile isDigitDot
    let rest2 := rest.dropWhile isDigitDot
    if cap.isEmpty then none
    else
      match matchOptSpaceMs rest2 with
      | some tail => some (cap, tail)
      | none => none
  | _ => none

/-- Fueled scan of the input for all non-overlapping matches, resuming after
each match and advancing one character past each failed position. -/
def findallAux : Nat → List Char → List (List Char)
  | 0, _ => []
  | fuel + 1, l =>
    match tryMatch l with
    | some (cap, tail) => cap :: findallAux fuel tail
    | none =>
      match l with
      | [] => []
      | _ :: rest => findallAux fuel rest

/-- All captures of `re.findall(r'time=([\d.]+)\s?ms', s)`, in order. -/
def findall (s : String) : List (List Char) :=
  findallAux (s.data.length + 1) s.data

/-! ## The pure core of `ping` (C1)

`ping` spawns the external ping process; its returncode and decoded stdout
are passed here as arguments.  On returncode 0 it extracts the captures,
returns `None` when there are none, and otherwise converts each capture with
`float` (an invalid capture raises `ValueError`, which the surrounding
`try` does not catch: it only handles `OSError` and `CalledProcessError`)
and returns their arithmetic mean.  On a nonzero returncode it prints the
error and returns `None`. -/

/-- Python exception classes relevant to the embedded fragments. -/
inductive PyError where
  | typeError
  | valueError
  | attributeError
  | keyError
  deriving DecidableEq, Repr

/-- Result of the body of `ping` given the process returncode and its decoded
standard output: `Except.error` models an uncaught exception, `Except.ok
none` the return value `None`, and `Except.ok (some q)` an average of `q`
milliseconds. -/
def pingCore (returncode : Int) (output : String) : Except PyError (Option ℚ) :=
  if returncode = 0 then
    let caps := findall output
    if caps.isEmpty then Except.ok none
    else
      match caps.mapM parsePyFloat with
      | some vs => Except.ok (some (vs.sum / (vs.length : ℚ)))
      | none => Except.error PyError.valueError
  else
    Except.ok none

/-! ## Spec-side pattern for C1

The claim speaks of occurrences of the pattern `time=<number> ms`: the
literal `time=`, a numeric token, a space, and `ms`.  A numeric token is a
digits-and-dots run that denotes a number (accepted by `float`). -/

/-- Does an occurrence of `time=<number> ms` start at the head of `l`? -/
def specMatchAt (l : List Char) : Bool :=
  match l with
  | 't' :: 'i' :: 'm' :: 'e' :: '=' :: rest =>
    let tok := rest.takeWhile isDigitDot
    let rest2 := rest.dropWhile isDigitDot
    (!tok.isEmpty) && (parsePyFloat tok).isSome &&
      (match rest2 with
       | ' ' :: 'm' :: 's' :: _ => true
       | _ => false)
  | _ => false

/-- Number of positions of `l` at which `time=<number> ms` occurs. -/
def specCount : List Char → Nat
  | [] => 0
  | c :: rest => (if specMatchAt (c :: rest) then 1 else 0) + specCount rest

/-! ## Settings: JSON values and `load_settings` / `save_settings` (C2, C6, C8, C10)

`json.load` yields a Python value: a dict (modelled as an association list
with distinct keys, in insertion order), list, string, number, boolean or
null.  `load_settings` opens the settings file and decodes it; a missing
file and a JSON decode error are each caught and answered with
`DEFAULT_SETTINGS`; on success the loop
`for key, value in DEFAULT_SETTINGS.items(): if key not in settings:
settings[key] = value` runs on the decoded value with Python `in` and
item-assignment semantics, whose exceptions (`TypeError` on non-dict
values) are NOT caught. -/

/-- A decoded JSON value. -/
inductive JValue where
  | obj (entries : List (String × JValue))
  | arr (elems : List JValue)
  | str (s : String)
  | num (q : ℚ)
  | bool (b : Bool)
  | null

/-- State of the settings file as seen by `load_settings`: absent, present
but not decodable as JSON, or decodable to a JSON value. -/
inductive FileState where
  | missing
  | malformed
  | wellFormed (v : JValue)

/-- The entries of `DEFAULT_SETTINGS`, in source order. -/
def DEFAULT_SETTINGS : List (String × JValue) :=
  [(("ping_count" : String), JValue.num 4),
   (("color_theme" : String), JValue.str ("default")),
   (("primary_dns" : String), JValue.str ("")),
   (("secondary_dns" : String), JValue.str (""))]

/-- The default settings value returned for a missing or malformed file. -/
def defaultsJ : JValue :=
  JValue.obj DEFAULT_SETTINGS

/-- Lookup of a key in an association list (Python dict lookup). -/
def lookupKey (es : List (String × JValue)) (key : String) : Option JValue :=
  match es with
  | [] => none
  | (k, v) :: rest => if k == key then some v else lookupKey rest key

/-- Dict key membership: does the association list carry the key? -/
def hasKey (es : List (String × JValue)) (key : String) : Bool :=
  es.any (fun p => p.1 == key)

/-- Substring test on character lists (Python `in` on strings; the empty
needle is a substring of everything). -/
def listIsInfixOf : List Char → List Char → Bool
  | needle, [] => needle.isEmpty
  | needle, c :: rest => List.isPrefixOf needle (c :: rest) || listIsInfixOf needle rest

/-- Python `key in value` for a string key: dict key membership, list
membership (a string equals a list element only if that element is the same
string), substring test on strings; `TypeError` on numbers, booleans and
`None`, which are not iterable. -/
def pyContains (v : JValue) (key : String) : Except PyError Bool :=
  match v with
  | JValue.obj es => Except.ok (hasKey es key)
  | JValue.arr xs =>
    Except.ok (xs.any (fun x =>
      match x with
      | JValue.str t => t == key
      | _ => false))
  | JValue.str s => Except.ok (listIsInfixOf key.data s.data)
  | _ => Except.error PyError.typeError

/-- Python dict item assignment: an existing key keeps its position and gets
the new value, a new key is appended at the end. -/
def dictSet (es : List (String × JValue)) (key : String) (val : JValue) :
    List (String × JValue) :=
  match es with
  | [] => [(key, val)]
  | (k, v) :: rest =>
    if k == key then (k, val) :: rest else (k, v) :: dictSet rest key val

/-- Python `value[key] = x` for a string key: dict assignment; `TypeError`
on every other JSON value (list indices must be integers, strings do not
support item assignment, and the remaining cases are unreachable because
the membership test raised first). -/
def pySetItem (v : JValue) (key : String) (val : JValue) : Except PyError JValue :=
  match v with
  | JValue.obj es => Except.ok (JValue.obj (dictSet es key val))
  | _ => Except.error PyError.typeError

/-- The merge loop of `load_settings` over the default entries. -/
def mergeGo (ds : List (String × JValue)) (s : JValue) : Except PyError JValue :=
  match ds with
  | [] => Except.ok s
  | (k, v) :: rest =>
    match pyContains s k with
    | Except.error e => Except.error e
    | Except.ok true => mergeGo rest s
    | Except.ok false =>
      match pySetItem s k v with
      | Except.error e => Except.error e
      | Except.ok s2 => mergeGo rest s2

/-- The body of `load_settings`: defaults on a missing or undecodable file,
otherwise the merge loop on the decoded value (whose `TypeError` on
non-dict values is uncaught). -/
def load_settings (fs : FileState) : Except PyError JValue :=
  match fs with
  | FileState.missing => Except.ok defaultsJ
  | FileState.malformed => Except.ok defaultsJ
  | FileState.wellFormed v => mergeGo DEFAULT_SETTINGS v

/-- Effect of a successful `save_settings`: `json.dump` writes the value,
and re-reading the file decodes the same value (serialisation of values
produced by `json.load` round-trips). -/
def save_settings (v : JValue) : FileState :=
  FileState.wellFormed v

/-- Does the value contain every key of the given default entries under
Python `in`?  (`false` also when the membership test itself raises.) -/
def containsAllOf (ds : List (String × JValue)) (v : JValue) : Bool :=
  ds.all (fun p =>
    match pyContains v p.1 with
    | Except.ok true => true
    | _ => false)

/-- Does the value contain every default key under Python `in`? -/
def containsAllKeys (v : JValue) : Bool :=
  containsAllOf DEFAULT_SETTINGS v

/-- Is the value a JSON object? -/
def isObj (v : JValue) : Bool :=
  match v with
  | JValue.obj _ => true
  | _ => false

/-! ## DNS validation: `socket.inet_aton` (C3)

`set_custom_dns` validates the entered address with `socket.inet_aton`,
which accepts the inet(3) numbers-and-dots notation, not just dotted
quads.  CPython delegates to the C library; the embedding follows the
glibc implementation (`inet_aton_end`), whose behaviour was checked on the
reference platform: up to four dot-separated components, each parsed by
`strtoul` with base 0 (hex after `0x`/`0X`, octal after a leading `0`,
decimal otherwise) and bounded by 2^32 - 1; every component before a dot
must be at most 255 and at most three dots are allowed; after the last
component the next character must be the end of the string or whitespace
(only the first trailing character is inspected); the last component must
fit the remaining bytes (below 2^32, 2^24, 2^16 or 2^8 according to the
number of dots). -/

/-- Is the head of the list a decimal digit? -/
def headIsDigit : List Char → Bool
  | [] => false
  | c :: _ => c.isDigit

/-- Octal digit test, as in C `strtoul` with base 8. -/
def isOctalDigit (c : Char) : Bool :=
  '0' ≤ c && c ≤ '7'

/-- Hexadecimal digit test. -/
def isHexDigitChar (c : Char) : Bool :=
  c.isDigit || ('a' ≤ c && c ≤ 'f') || ('A' ≤ c && c ≤ 'F')

/-- Numeric value of a hexadecimal digit character. -/
def hexVal (c : Char) : Nat :=
  if c.isDigit then digitVal c
  else if 'a' ≤ c && c ≤ 'f' then c.toNat - 'a'.toNat + 10
  else c.toNat - 'A'.toNat + 10

/-- Scan a decimal number, stopping at the first non-digit. -/
def scanDec : Nat → List Char → Nat × List Char
  | val, [] => (val, [])
  | val, c :: rest =>
    if c.isDigit then scanDec (val * 10 + digitVal c) rest else (val, c :: rest)

/-- Scan an octal number, stopping at the first character that is not an
octal digit. -/
def scanOct : Nat → List Char → Nat × List Char
  | val, [] => (val, [])
  | val, c :: rest =>
    if isOctalDigit c then scanOct (val * 8 + digitVal c) rest else (val, c :: rest)

/-- Scan a hexadecimal number, stopping at the first non-hex-digit. -/
def scanHex : Nat → List Char → Nat × List Char
  | val, [] => (val, [])
  | val, c :: rest =>
    if isHexDigitChar c then scanHex (val * 16 + hexVal c) rest else (val, c :: rest)

/-- C `strtoul(cp, &endp, 0)` on input whose first character is a digit:
after `0x`/`0X` with at least one hex digit the number is hexadecimal,
after a plain leading `0` octal, otherwise decimal; parsing stops at the
first character invalid in the chosen base, which is returned with the
rest.  Values are exact naturals (the caller rejects everything above
2^32 - 1, which also covers the unsigned-long overflow path). -/
def strtoul0 (l : List Char) : Nat × List Char :=
  match l with
  | [] => (0, [])
  | c :: rest =>
    if c == '0' then
      match rest with
      | c2 :: rest2 =>
        if c2 == 'x' || c2 == 'X' then
          if (match rest2 with
              | c3 :: _ => isHexDigitChar c3
              | [] => false) then
            scanHex 0 rest2
          else (0, c2 :: rest2)
        else scanOct 0 rest
      | [] => (0, [])
    else scanDec 0 l

/-- The component loop of glibc `inet_aton`: collect up to four
dot-separated numbers; every component before a dot must be at most 255
and at most three components may precede dots.  The fuel (4 at the top
call) dominates the loop depth. -/
def atonLoop : Nat → List Nat → List Char → Option (List Nat × Nat × List Char)
  | _, _, [] => none
  | 0, _, _ => none
  | fuel + 1, parts, c :: rest =>
    if !c.isDigit then none
    else
      let (ul, rest2) := strtoul0 (c :: rest)
      if ul > 4294967295 then none
      else
        match rest2 with
        | '.' :: rest3 =>
          if parts.length > 2 || ul > 255 then none
          else atonLoop fuel (parts ++ [ul]) rest3
        | _ => some (parts, ul, rest2)

/-- Trailing-character check of `inet_aton`: only the first character after
the last number is inspected; it must be absent or whitespace. -/
def trailOk : List Char → Bool
  | [] => true
  | c :: _ => isSpaceChar c

/-- Upper bound on the last component, by the number of components stored
before it. -/
def maxLast (n : Nat) : Nat :=
  match n with
  | 0 => 4294967295
  | 1 => 16777215
  | 2 => 65535
  | _ => 255

/-- Assemble the 32-bit address: stored components fill the leading bytes,
the final value the remaining ones. -/
def assembleAddr (parts : List Nat) (val : Nat) : Nat :=
  match parts with
  | [] => val
  | [a] => a * 16777216 + val
  | [a, b] => a * 16777216 + b * 65536 + val
  | a :: b :: c :: _ => a * 16777216 + b * 65536 + c * 256 + val

/-- `socket.inet_aton` on a character list: the 32-bit address on success,
`none` when the C function fails (CPython raises `OSError` then). -/
def inet_atonL (l : List Char) : Option Nat :=
  match atonLoop 4 [] l with
  | none => none
  | some (parts, val, rest) =>
    if trailOk rest && decide (val ≤ maxLast parts.length) then
      some (assembleAddr parts val)
    else none

/-- Does `socket.inet_aton` accept the string? -/
def inet_aton_valid (s : String) : Bool :=
  (inet_atonL s.data).isSome

/-- One iteration of the input loop of `set_custom_dns`: a valid address is
stored under `<dns_type>_dns` in the settings dict, which is saved at
once; an invalid address prints an error and prompts again (`none`). -/
def set_custom_dns_step (settings : List (String × JValue)) (dns_type : String)
    (new_dns : String) : Option (List (String × JValue) × FileState) :=
  if inet_aton_valid new_dns then
    let s2 := dictSet settings (dns_type ++ ("_dns")) (JValue.str new_dns)
    some (s2, save_settings (JValue.obj s2))
  else none

/-! ## Spec-side definition for C3: dotted quads

The claim describes the accepted set as exactly the IPv4 dotted quads
`a.b.c.d` with four octets between 0 and 255 (written canonically in
decimal, a single `0` or a string not starting with `0`). -/

/-- Split a character list at every dot. -/
def splitDots : List Char → List (List Char)
  | [] => [[]]
  | c :: rest =>
    if c == '.' then [] :: splitDots rest
    else
      match splitDots rest with
      | h :: t => (c :: h) :: t
      | [] => [[c]]

/-- Rejoin dot-separated components. -/
def joinDots : List (List Char) → List Char
  | [] => []
  | x :: xs =>
    match xs with
    | [] => x
    | _ :: _ => x ++ '.' :: joinDots xs

/-- Is the component a canonically written decimal octet between 0 and
255 (a single `0`, or digits not starting with `0`)? -/
def isOctet (l : List Char) : Bool :=
  match l with
  | [] => false
  | c :: rest =>
    if c == '0' then rest.isEmpty
    else c.isDigit && rest.all Char.isDigit && decide (decVal (c :: rest) ≤ 255)

/-- Is the string of the exact form `a.b.c.d` with four octets in 0..255? -/
def isDottedQuad (s : String) : Bool :=
  match splitDots s.data with
  | [a, b, c, d] => isOctet a && isOctet b && isOctet c && isOctet d
  | _ => false

/-- A JSON array listing the four default key names (used for C10). -/
def allKeysArr : JValue :=
  JValue.arr [JValue.str ("ping_count"), JValue.str ("color_theme"),
    JValue.str ("primary_dns"), JValue.str ("secondary_dns")]

/-! ## Certificates: `calculate_certificate_lifetime` (C4, C9)

`get_certificate_info` returns the peer certificate as a dict (or `None` on
any connection, resolution or handshake failure).  The dict carries the
`subject` RDN sequence and the `notAfter` expiry string in the fixed format
`%b %d %H:%M:%S %Y %Z` (for example `Jun 01 12:00:00 2030 GMT`). -/

/-- A peer certificate as returned by `getpeercert`: the subject (a
sequence of RDNs, each a sequence of attribute pairs) and the `notAfter`
entry (`none` models a dict without that key, on which `cert['notAfter']`
raises `KeyError`). -/
structure PyCert where
  subject : List (List (String × String))
  notAfter : Option String

/-- Lowercase a character list. -/
def lowerStr (l : List Char) : List Char :=
  l.map Char.toLower

/-- Month abbreviations recognised by `%b`, lowercase, in order. -/
def monthNames : List (List Char) :=
  [String.data ("jan"), String.data ("feb"), String.data ("mar"),
   String.data ("apr"), String.data ("may"), String.data ("jun"),
   String.data ("jul"), String.data ("aug"), String.data ("sep"),
   String.data ("oct"), String.data ("nov"), String.data ("dec")]

/-- Month number for a `%b` token (case-insensitive), 1 to 12. -/
def monthNum (l : List Char) : Option Nat :=
  match monthNames.findIdx? (fun m => m == lowerStr l) with
  | some i => some (i + 1)
  | none => none

/-- Split a character list at every whitespace character (runs produce
empty components, discarded by `wsTokens`). -/
def splitSp : List Char → List (List Char)
  | [] => [[]]
  | c :: rest =>
    if isSpaceChar c then [] :: splitSp rest
    else
      match splitSp rest with
      | h :: t => (c :: h) :: t
      | [] => [[c]]

/-- Whitespace-separated tokens (literal whitespace in a `strptime` format
matches one or more whitespace characters). -/
def wsTokens (l : List Char) : List (List Char) :=
  (splitSp l).filter (fun t => !t.isEmpty)

/-- Split a character list at every colon. -/
def splitColon : List Char → List (List Char)
  | [] => [[]]
  | c :: rest =>
    if c == ':' then [] :: splitColon rest
    else
      match splitColon rest with
      | h :: t => (c :: h) :: t
      | [] => [[c]]

/-- Parse a one-or-two-digit numeric field. -/
def parse12 (l : List Char) : Option Nat :=
  match l with
  | [c] => if c.isDigit then some (digitVal c) else none
  | [c1, c2] => if c1.isDigit && c2.isDigit then some (digitVal c1 * 10 + digitVal c2) else none
  | _ => none

/-- The parsed fields of a `notAfter` timestamp. -/
structure DateTuple where
  year : Nat
  month : Nat
  day : Nat
  hour : Nat
  minute : Nat
  second : Nat
  deriving DecidableEq, Repr

/-- Model of `datetime.strptime(s, '%b %d %H:%M:%S %Y %Z')`: a month
abbreviation, a day 1 to 31, a time with hour up to 23, minute up to 59 and
second up to 61, a four-digit year and a timezone name (`GMT` or `UTC` in
certificate output), separated by whitespace; `none` models the
`ValueError` raised on anything else. -/
def strptimeCert (s : String) : Option DateTuple :=
  match wsTokens s.data with
  | [montok, daytok, timetok, yeartok, tztok] =>
    match monthNum montok with
    | none => none
    | some m =>
      match parse12 daytok with
      | none => none
      | some d =>
        if d < 1 || d > 31 then none
        else
          match splitColon timetok with
          | [htok, mintok, sectok] =>
            match parse12 htok, parse12 mintok, parse12 sectok with
            | some hh, some mm, some ss =>
              if hh > 23 || mm > 59 || ss > 61 then none
              else if yeartok.length == 4 && yeartok.all Char.isDigit then
                if lowerStr tztok == String.data ("gmt")
                    || lowerStr tztok == String.data ("utc") then
                  some ⟨decVal yeartok, m, d, hh, mm, ss⟩
                else none
              else none
            | _, _, _ => none
          | _ => none
  | _ => none

/-- The body of `calculate_certificate_lifetime`.  The module does
`from datetime import datetime`, so the name `datetime` is the class
itself; the expression `datetime.datetime.now(datetime.timezone.utc)` on
the next line therefore raises `AttributeError` (the class has no
attribute `datetime`), and the surrounding `except (ValueError, KeyError)`
does not catch it.  The subtraction `not_after - now` is unreachable: the
function can never produce a timedelta, so the `Option Int` (remaining
seconds) in the result is never `some`. -/
def calculate_certificate_lifetime (cert : Option PyCert) : Except PyError (Option Int) :=
  match cert with
  | none => Except.ok none
  | some c =>
    match c.notAfter with
    | none => Except.ok none
    | some s =>
      match strptimeCert s with
      | none => Except.ok none
      | some _ => Except.error PyError.attributeError

/-- The body of `get_certificate_name`: the first `commonName` attribute of
the subject, else "Unknown". -/
def get_certificate_name (cert : Option PyCert) : String :=
  match cert with
  | none => ("Unknown")
  | some c =>
    match c.subject.findSome? (fun entry =>
        entry.findSome? (fun attr =>
          if attr.1 == ("commonName") then some attr.2 else none)) with
    | some name => name
    | none => ("Unknown")

/-- A certificate with a `commonName` and a well-formed `notAfter` date. -/
def certEx : PyCert :=
  ⟨[[(("commonName" : String), ("example.com" : String))]], some ("Jun 01 12:00:00 2030 GMT")⟩

/-! ## TLS version diagnostic: `get_encryption_type` (C5)

The outcome of the connection attempt and handshake is passed as an
argument; `str(e)` of a caught exception is carried as its message. -/

/-- Outcome of `create_connection` plus `wrap_socket` in
`get_encryption_type`. -/
inductive TlsOutcome where
  | success (version : String)
  | dnsFailure
  | sslError (msg : String)
  | osError (msg : String)
  | otherError (msg : String)

/-- The body of `get_encryption_type`: the negotiated version on success,
otherwise a diagnostic string chosen by the exception handlers; the
function never raises. -/
def get_encryption_type (o : TlsOutcome) : String :=
  match o with
  | TlsOutcome.success v => v
  | TlsOutcome.dnsFailure => ("Unknown - Could not resolve hostname")
  | TlsOutcome.sslError msg =>
    if listIsInfixOf (String.data ("PROTOCOL_NOT_SUPPORTED")) msg.data then
      ("None - Server does not support SSL/TLS")
    else ("Unknown - SSL Error: ") ++ msg
  | TlsOutcome.osError msg => ("Unknown - OS Error: ") ++ msg
  | TlsOutcome.otherError msg => ("Unknown - Error: ") ++ msg

/-- Does the string start with the given prefix? -/
def strStartsWith (s pre : String) : Bool :=
  List.isPrefixOf pre.data s.data

/-! ## Noninterference of the DNS settings with `ping` (C7) -/

/-- Host platform family as reported by `platform.system()`. -/
inductive OSFamily where
  | windows
  | linux
  | darwin
  | other
  deriving DecidableEq

/-- Python `str` of a settings value as it appears in the command list
(integer counts print without a decimal point). -/
def pyStr (v : JValue) : String :=
  match v with
  | JValue.num q => if q.den = 1 then toString q.num else toString q
  | JValue.str s => s
  | _ => ("?")

/-- Python truthiness of `SETTINGS.get(key)`: a missing key gives `None`
(falsy); empty strings, zero, `False`, `None` and empty containers are
falsy. -/
def jvTruthy (v : Option JValue) : Bool :=
  match v with
  | none => false
  | some (JValue.str s) => !s.isEmpty
  | some (JValue.num q) => !(q == 0)
  | some (JValue.bool b) => b
  | some JValue.null => false
  | some (JValue.obj es) => !es.isEmpty
  | some (JValue.arr xs) => !xs.isEmpty

/-- The command construction and result of `ping(hostname,
count=SETTINGS["ping_count"])` as invoked by the menu actions: the count
comes from the settings dict (`KeyError` if absent), the platform flag is
`-n` on Windows and `-c` otherwise; on Linux and macOS the body evaluates
the condition `SETTINGS.get("primary_dns") or SETTINGS.get("secondary_dns")`
and then does nothing with it (the branch body is `pass`), so neither the
constructed command nor the parsed result depends on the DNS entries. -/
def ping_run (os : OSFamily) (settings : List (String × JValue)) (hostname : String)
    (returncode : Int) (output : String) :
    Except PyError (List String × Except PyError (Option ℚ)) :=
  match lookupKey settings ("ping_count") with
  | none => Except.error PyError.keyError
  | some count =>
    let param := if os = OSFamily.windows then ("-n") else ("-c")
    let command := [("ping" : String), param, pyStr count, hostname]
    let _dnsCheck :=
      (decide (os = OSFamily.linux) || decide (os = OSFamily.darwin)) &&
        (jvTruthy (lookupKey settings ("primary_dns")) ||
         jvTruthy (lookupKey settings ("secondary_dns")))
    Except.ok (command, pingCore returncode output)

/-! ## The per-host status pipeline: `display_server_status` (C9)

The four probe outcomes are computed first (`get_country` and
`get_encryption_type` are total, `get_certificate_info` returns an option,
`ping` may let a `ValueError` escape), then the report is printed; on a
present certificate `calculate_certificate_lifetime` runs as part of the
reporting.  The result is the list of printed report fields, or the
uncaught exception that aborts the pipeline (and the process). -/

/-- One printed field of the per-host status report. -/
inductive StatusLine where
  | status (hostname country : String) (avgPing : Option ℚ)
  | certName (name : String)
  | certLifetime (seconds : Int)
  | certLifetimeUnknown
  | certUnavailable
  | encryption (version : String)

/-- The body of `display_server_status`, given the probe outcomes. -/
def display_server_status (hostname country : String)
    (pingRes : Except PyError (Option ℚ)) (cert : Option PyCert) (tls : TlsOutcome) :
    Except PyError (List StatusLine) :=
  match pingRes with
  | Except.error e => Except.error e
  | Except.ok avg =>
    match cert with
    | some c =>
      match calculate_certificate_lifetime (some c) with
      | Except.error e => Except.error e
      | Except.ok lifetime =>
        Except.ok ([StatusLine.status hostname country avg,
          StatusLine.certName (get_certificate_name (some c))] ++
          (match lifetime with
           | some t => if t == 0 then [StatusLine.certLifetimeUnknown]
                       else [StatusLine.certLifetime t]
           | none => [StatusLine.certLifetimeUnknown]) ++
          [StatusLine.encryption (get_encryption_type tls)])
    | none =>
      Except.ok [StatusLine.status hostname country avg,
        StatusLine.certUnavailable,
        StatusLine.encryption (get_encryption_type tls)]

/-- C1, amended: on exit code 0, `ping` extracts the captures of the regex
`time=([\d.]+)\s?ms` (the whitespace before `ms` is optional in the code);
it returns `None` exactly when there is no match (never zero, never an
exception in that case); when every capture is a well-formed number it
returns their arithmetic mean; and when some capture is not a well-formed
number (such as "." ) the `float` conversion raises an uncaught
`ValueError`. -/
theorem claim_C1_amended (out : String) :
    (pingCore 0 out = Except.ok none ↔ findall out = [])
    ∧ (∀ vs : List ℚ, (findall out).mapM parsePyFloat = some vs → vs ≠ [] →
        pingCore 0 out = Except.ok (some (vs.sum / (vs.length : ℚ))))
    ∧ ((findall out).mapM parsePyFloat = none →
        pingCore 0 out = Except.error PyError.valueError) := by
  unfold pingCore
  rw [if_pos rfl]
  rcases hc : findall out with _ | ⟨c, cs⟩
  · refine ⟨by simp, ?_, ?_⟩
    · intro vs hvs hne
      rw [List.mapM_nil] at hvs
      exact absurd (by injection hvs with h; exact h.symm) hne
    · intro hvs
      rw [List.mapM_nil] at hvs
      exact Option.noConfusion hvs
  · simp only [List.isEmpty_cons, Bool.false_eq_true, if_false]
    rcases hm : (c :: cs).mapM parsePyFloat with _ | vs
    · refine ⟨by simp, ?_, fun _ => rfl⟩
      intro vs hvs
      exact absurd hvs (by simp)
    · refine ⟨by simp, ?_, ?_⟩
      · intro vs' hvs' _
        obtain rfl : vs = vs' := by injection hvs'
        rfl
      · intro hvs
        exact absurd hvs (by simp)

/-- C1, counterexample to the claim as stated: in the output "time=. ms" the
pattern `time=<number> ms` occurs zero times and the process exits 0, so the
claim requires `ping` to return `None` without an exception; but the regex
captures "." there, and `float(".")` raises an uncaught `ValueError`. -/
theorem claim_C1_counterexample :
    specCount (String.data ("time=. ms")) = 0
    ∧ pingCore 0 "time=. ms" = Except.error PyError.valueError := by
  with_unfolding_all (exact ⟨rfl, rfl⟩)

/-- C1, witness: on the two-reply output of the specification scenario the
average is 15.0 ms. -/
theorem claim_C1_witness :
    pingCore 0 "64 bytes time=10.0 ms\n64 bytes time=20.0 ms" = Except.ok (some 15) := by
  have h := (claim_C1_amended ("64 bytes time=10.0 ms\n64 bytes time=20.0 ms")).2.1
      [10, 20] (by with_unfolding_all rfl) (by simp)
  rw [h]
  norm_num

theorem hasKey_append (es fs : List (String × JValue)) (k : String) :
    hasKey (es ++ fs) k = (hasKey es k || hasKey fs k) := by
  simp [hasKey, List.any_append]

theorem hasKey_of_mem {es : List (String × JValue)} {k : String} {v : JValue}
    (h : (k, v) ∈ es) : hasKey es k = true := by
  simp only [hasKey, List.any_eq_true]
  exact ⟨(k, v), h, by simp⟩

theorem lookupKey_none {es : List (String × JValue)} {k : String}
    (h : hasKey es k = false) : lookupKey es k = none := by
  induction es with
  | nil => rfl
  | cons p rest ih =>
    obtain ⟨k1, v1⟩ := p
    simp only [hasKey, List.any_cons, Bool.or_eq_false_iff] at h
    simp only [lookupKey, h.1, if_false]
    exact ih h.2

theorem lookupKey_append_right {es fs : List (String × JValue)} {k : String}
    (h : hasKey es k = false) : lookupKey (es ++ fs) k = lookupKey fs k := by
  induction es with
  | nil => rfl
  | cons p rest ih =>
    obtain ⟨k1, v1⟩ := p
    simp only [hasKey, List.any_cons, Bool.or_eq_false_iff] at h
    simp only [List.cons_append, lookupKey, h.1, if_false]
    exact ih h.2

theorem dictSet_append {es : List (String × JValue)} {k : String} {v : JValue}
    (h : hasKey es k = false) : dictSet es k v = es ++ [(k, v)] := by
  induction es with
  | nil => rfl
  | cons p rest ih =>
    obtain ⟨k1, v1⟩ := p
    simp only [hasKey, List.any_cons, Bool.or_eq_false_iff] at h
    simp [dictSet, h.1, ih h.2]

theorem lookupKey_of_mem_nodup {es : List (String × JValue)}
    (hnd : (es.map Prod.fst).Nodup) {k : String} {v : JValue}
    (h : (k, v) ∈ es) : lookupKey es k = some v := by
  induction es with
  | nil => cases h
  | cons p rest ih =>
    obtain ⟨k1, v1⟩ := p
    rw [List.map_cons, List.nodup_cons] at hnd
    rcases List.mem_cons.mp h with heq | hmem
    · obtain ⟨rfl, rfl⟩ := Prod.mk.injEq .. ▸ heq
      simp [lookupKey]
    · have hne : k1 ≠ k := by
        intro hkk
        exact hnd.1 (hkk ▸ (List.mem_map.mpr ⟨(k, v), hmem, rfl⟩))
      simp only [lookupKey, beq_eq_false_iff_ne.mpr hne, if_false]
      exact ih hnd.2 hmem

theorem merge_obj (ds : List (String × JValue)) (es : List (String × JValue))
    (hnd : (ds.map Prod.fst).Nodup) :
    mergeGo ds (JValue.obj es) =
      Except.ok (JValue.obj (es ++ ds.filter (fun p => !hasKey es p.1))) := by
  induction ds generalizing es with
  | nil => simp [mergeGo]
  | cons p rest ih =>
    obtain ⟨k, v⟩ := p
    rw [List.map_cons, List.nodup_cons] at hnd
    simp only [mergeGo, pyContains]
    cases hk : hasKey es k
    · simp only [pySetItem, dictSet_append hk]
      rw [ih _ hnd.2]
      have hfc : rest.filter (fun p => !hasKey (es ++ [(k, v)]) p.1)
          = rest.filter (fun p => !hasKey es p.1) := by
        apply List.filter_congr
        intro q hq
        have hqk : q.1 ≠ k := by
          intro hqe
          exact hnd.1 (hqe ▸ (List.mem_map.mpr ⟨q, hq, rfl⟩))
        have h1 : hasKey [(k, v)] q.1 = false := by
          simp only [hasKey, List.any_cons, List.any_nil, Bool.or_false]
          exact beq_eq_false_iff_ne.mpr hqk.symm
        show (!hasKey (es ++ [(k, v)]) q.1) = (!hasKey es q.1)
        rw [hasKey_append, h1, Bool.or_false]
      rw [hfc]
      simp [List.filter_cons, hk]
    · rw [ih _ hnd.2]
      simp [List.filter_cons, hk]

theorem defaults_nodup : (DEFAULT_SETTINGS.map Prod.fst).Nodup := by
  decide

theorem merge_obj_hasKey (ds es : List (String × JValue)) (k : String) (v : JValue)
    (hmem : (k, v) ∈ ds) :
    hasKey (es ++ ds.filter (fun p => !hasKey es p.1)) k = true := by
  rw [hasKey_append]
  cases hk : hasKey es k
  · have hm : (k, v) ∈ ds.filter (fun p => !hasKey es p.1) :=
      List.mem_filter.mpr ⟨hmem, by simp [hk]⟩
    rw [hasKey_of_mem hm]
    simp
  · simp

theorem pySetItem_nonobj {v : JValue} (h : isObj v = false) (k : String) (w : JValue) :
    pySetItem v k w = Except.error PyError.typeError := by
  cases v <;> first | rfl | simp [isObj] at h

theorem merge_nonobj (ds : List (String × JValue)) (v : JValue) (h : isObj v = false) :
    (containsAllOf ds v = true → mergeGo ds v = Except.ok v)
    ∧ (containsAllOf ds v = false → mergeGo ds v = Except.error PyError.typeError) := by
  induction ds with
  | nil => exact ⟨fun _ => rfl, fun hc => by simp [containsAllOf] at hc⟩
  | cons p rest ih =>
    obtain ⟨k, w⟩ := p
    rcases hpc : pyContains v k with e | b
    · have he : e = PyError.typeError := by
        cases v <;> simp [pyContains] at hpc <;> exact hpc.symm
      constructor
      · intro hc
        simp [containsAllOf, hpc] at hc
      · intro _
        simp only [mergeGo, hpc, he]
    · cases b
      · constructor
        · intro hc
          simp [containsAllOf, hpc] at hc
        · intro _
          simp only [mergeGo, hpc, pySetItem_nonobj h]
      · have hrec := ih
        constructor
        · intro hc
          simp only [containsAllOf, List.all_cons, hpc, Bool.true_and] at hc
          simp only [mergeGo, hpc]
          exact hrec.1 hc
        · intro hc
          simp only [containsAllOf, List.all_cons, hpc, Bool.true_and] at hc
          simp only [mergeGo, hpc]
          exact hrec.2 hc


theorem merge_defaults_self : mergeGo DEFAULT_SETTINGS defaultsJ = Except.ok defaultsJ := rfl

theorem merge_merged (es : List (String × JValue)) :
    mergeGo DEFAULT_SETTINGS (JValue.obj (es ++ DEFAULT_SETTINGS.filter (fun p => !hasKey es p.1)))
      = Except.ok (JValue.obj (es ++ DEFAULT_SETTINGS.filter (fun p => !hasKey es p.1))) := by
  rw [merge_obj _ _ defaults_nodup]
  have hnil : DEFAULT_SETTINGS.filter
      (fun p => !hasKey (es ++ DEFAULT_SETTINGS.filter (fun q => !hasKey es q.1)) p.1) = [] := by
    rw [List.filter_eq_nil_iff]
    intro p hp
    obtain ⟨k, v⟩ := p
    simp [merge_obj_hasKey DEFAULT_SETTINGS es k v hp]
  rw [hnil, List.append_nil]

theorem merge_idem_nonobj {w v : JValue} (hw : isObj w = false)
    (h : mergeGo DEFAULT_SETTINGS w = Except.ok v) : mergeGo DEFAULT_SETTINGS v = Except.ok v := by
  cases hc : containsAllOf DEFAULT_SETTINGS w
  · rw [(merge_nonobj _ _ hw).2 hc] at h
    exact Except.noConfusion h
  · rw [(merge_nonobj _ _ hw).1 hc] at h
    obtain rfl : w = v := by injection h
    exact (merge_nonobj _ _ hw).1 hc

/-- C2: a missing or malformed settings file yields exactly the defaults
(`ping_count` 4, `color_theme` "default", empty DNS entries) without an
exception, and for a present well-formed settings object every key missing
from the file is filled in from the defaults. -/
theorem claim_C2 :
    load_settings FileState.missing = Except.ok defaultsJ
    ∧ load_settings FileState.malformed = Except.ok defaultsJ
    ∧ lookupKey DEFAULT_SETTINGS ("ping_count") = some (JValue.num 4)
    ∧ lookupKey DEFAULT_SETTINGS ("color_theme") = some (JValue.str ("default"))
    ∧ lookupKey DEFAULT_SETTINGS ("primary_dns") = some (JValue.str (""))
    ∧ lookupKey DEFAULT_SETTINGS ("secondary_dns") = some (JValue.str (""))
    ∧ ∀ es : List (String × JValue), ∃ es2,
        load_settings (FileState.wellFormed (JValue.obj es)) = Except.ok (JValue.obj es2)
        ∧ ∀ k v, (k, v) ∈ DEFAULT_SETTINGS → hasKey es k = false → lookupKey es2 k = some v := by
  refine ⟨rfl, rfl, rfl, rfl, rfl, rfl, ?_⟩
  intro es
  refine ⟨es ++ DEFAULT_SETTINGS.filter (fun p => !hasKey es p.1),
    merge_obj _ _ defaults_nodup, ?_⟩
  intro k v hmem hk
  rw [lookupKey_append_right hk]
  apply lookupKey_of_mem_nodup
  · exact ((List.filter_sublist _).map Prod.fst).nodup defaults_nodup
  · exact List.mem_filter.mpr ⟨hmem, by simp [hk]⟩

/-- C2, witness: a settings object carrying only `ping_count` gets
`color_theme` filled with "default". -/
theorem claim_C2_witness :
    ∃ es2, load_settings (FileState.wellFormed (JValue.obj [(("ping_count" : String), JValue.num 9)]))
        = Except.ok (JValue.obj es2)
      ∧ lookupKey es2 ("color_theme") = some (JValue.str ("default")) := by
  obtain ⟨es2, h1, h2⟩ := claim_C2.2.2.2.2.2.2 [(("ping_count" : String), JValue.num 9)]
  exact ⟨es2, h1, h2 _ _ (List.Mem.tail _ (List.Mem.head _)) rfl⟩

/-- C8: the merge of `load_settings` on a well-formed settings object only
appends entries; the loaded entries, unknown keys included, reappear
unchanged (in order, at the front), and everything appended is a default
entry whose key was missing from the file. -/
theorem claim_C8 (es : List (String × JValue)) :
    ∃ extra,
      load_settings (FileState.wellFormed (JValue.obj es)) = Except.ok (JValue.obj (es ++ extra))
      ∧ ∀ p ∈ extra, p ∈ DEFAULT_SETTINGS ∧ hasKey es p.1 = false := by
  refine ⟨DEFAULT_SETTINGS.filter (fun p => !hasKey es p.1), merge_obj _ _ defaults_nodup, ?_⟩
  intro p hp
  have hm := List.mem_filter.mp hp
  exact ⟨hm.1, by simpa using hm.2⟩

/-- C8, witness: an object with a single unknown key is preserved as the
front of the merged object. -/
theorem claim_C8_witness :
    ∃ extra,
      load_settings (FileState.wellFormed (JValue.obj [(("custom_key" : String), JValue.str ("kept"))]))
        = Except.ok (JValue.obj ([(("custom_key" : String), JValue.str ("kept"))] ++ extra)) := by
  obtain ⟨extra, h1, _⟩ := claim_C8 [(("custom_key" : String), JValue.str ("kept"))]
  exact ⟨extra, h1⟩

/-- C6: saving what was loaded is idempotent: whenever `load_settings`
returns a value, loading the file written by `save_settings` of that value
returns the same value again, so the second `save(load())` writes a file
identical to the first. -/
theorem claim_C6 (fs : FileState) (v : JValue) (h : load_settings fs = Except.ok v) :
    load_settings (save_settings v) = Except.ok v := by
  show mergeGo DEFAULT_SETTINGS v = Except.ok v
  cases fs with
  | missing =>
    obtain rfl : defaultsJ = v := by injection h
    exact merge_defaults_self
  | malformed =>
    obtain rfl : defaultsJ = v := by injection h
    exact merge_defaults_self
  | wellFormed w =>
    simp only [load_settings] at h
    cases w with
    | obj es =>
      rw [merge_obj _ _ defaults_nodup] at h
      obtain rfl : JValue.obj (es ++ DEFAULT_SETTINGS.filter (fun p => !hasKey es p.1)) = v := by
        injection h
      exact merge_merged es
    | arr xs => exact merge_idem_nonobj (show isObj (JValue.arr xs) = false from rfl) h
    | str t => exact merge_idem_nonobj (show isObj (JValue.str t) = false from rfl) h
    | num q => exact merge_idem_nonobj (show isObj (JValue.num q) = false from rfl) h
    | bool b => exact merge_idem_nonobj (show isObj (JValue.bool b) = false from rfl) h
    | null => exact merge_idem_nonobj (show isObj JValue.null = false from rfl) h

/-- C6, witness: idempotence at the missing-file start state. -/
theorem claim_C6_witness :
    load_settings (save_settings defaultsJ) = Except.ok defaultsJ :=
  claim_C6 FileState.missing defaultsJ rfl

/-- C10, counterexample to the claim as stated: a JSON array listing all
four default key names is not an object, yet `load_settings` neither
raises nor returns defaults on it: every membership test succeeds, so the
array itself is returned unchanged. -/
theorem claim_C10_counterexample :
    isObj allKeysArr = false
    ∧ load_settings (FileState.wellFormed allKeysArr) = Except.ok allKeysArr := ⟨rfl, rfl⟩

/-- C10, amended: on well-formed JSON whose top-level value is not an
object, `load_settings` never returns defaults: when the value contains
every default key under the Python `in` operator it is returned unchanged,
and otherwise the merge loop raises an uncaught `TypeError` (for numbers,
booleans and null the membership test itself raises; for arrays and
strings lacking a key, the item assignment raises). -/
theorem claim_C10_amended (v : JValue) (h : isObj v = false) :
    (containsAllKeys v = true → load_settings (FileState.wellFormed v) = Except.ok v)
    ∧ (containsAllKeys v = false →
        load_settings (FileState.wellFormed v) = Except.error PyError.typeError) :=
  merge_nonobj DEFAULT_SETTINGS v h

/-- C10, witness: a JSON string lacking the default keys makes
`load_settings` raise `TypeError`. -/
theorem claim_C10_witness :
    load_settings (FileState.wellFormed (JValue.str ("abc"))) = Except.error PyError.typeError :=
  (claim_C10_amended (JValue.str ("abc")) rfl).2 rfl

theorem isOctet_le {l : List Char} (h : isOctet l = true) : decVal l ≤ 255 := by
  cases l with
  | nil => cases h
  | cons c rest =>
    simp only [isOctet] at h
    by_cases hc : c = '0'
    · subst hc
      simp at h
      subst h
      decide
    · rw [if_neg (by simpa using hc)] at h
      simp only [Bool.and_eq_true, decide_eq_true_eq] at h
      exact h.2

theorem isOctet_head_digit {l : List Char} (h : isOctet l = true) : headIsDigit l = true := by
  cases l with
  | nil => cases h
  | cons c rest =>
    simp only [isOctet] at h
    by_cases hc : c = '0'
    · subst hc
      exact (by decide : ('0'.isDigit = true))
    · rw [if_neg (by simpa using hc)] at h
      simp only [Bool.and_eq_true] at h
      exact h.1.1

theorem scanDec_digits (l rest : List Char) (v : Nat)
    (hl : l.all Char.isDigit = true) (hr : headIsDigit rest = false) :
    scanDec v (l ++ rest) = (l.foldl (fun a c => a * 10 + digitVal c) v, rest) := by
  induction l generalizing v with
  | nil =>
    cases rest with
    | nil => rfl
    | cons c r =>
      simp only [headIsDigit] at hr
      simp [scanDec, hr]
  | cons c l2 ih =>
    simp only [List.all_cons, Bool.and_eq_true] at hl
    simp only [List.cons_append, scanDec, hl.1, if_true, List.foldl_cons]
    exact ih _ hl.2

theorem strtoul0_octet (l rest : List Char) (h : isOctet l = true)
    (hrest : rest = [] ∨ ∃ r, rest = '.' :: r) :
    strtoul0 (l ++ rest) = (decVal l, rest) := by
  cases l with
  | nil => cases h
  | cons c l2 =>
    simp only [isOctet] at h
    by_cases hc : c = '0'
    · subst hc
      simp at h
      subst h
      rcases hrest with rfl | ⟨r, rfl⟩
      · rfl
      · rfl
    · rw [if_neg (by simpa using hc)] at h
      simp only [Bool.and_eq_true, decide_eq_true_eq] at h
      have hr : headIsDigit rest = false := by
        rcases hrest with rfl | ⟨r, rfl⟩
        · rfl
        · rfl
      have hshape : (c :: l2) ++ rest = c :: (l2 ++ rest) := rfl
      rw [hshape]
      simp only [strtoul0, beq_eq_false_iff_ne.mpr hc, Bool.false_eq_true, if_false]
      rw [show (c :: (l2 ++ rest)) = ((c :: l2) ++ rest) from rfl]
      rw [scanDec_digits (c :: l2) rest 0 (by simp [h.1.1, h.1.2]) hr]
      rfl

theorem atonLoop_last (fuel : Nat) (parts : List Nat) (l : List Char)
    (h : isOctet l = true) :
    atonLoop (fuel + 1) parts l = some (parts, decVal l, []) := by
  have hs := strtoul0_octet l [] h (Or.inl rfl)
  rw [List.append_nil] at hs
  cases l with
  | nil => cases h
  | cons c l2 =>
    have hd : c.isDigit = true := by
      have := isOctet_head_digit h
      simpa [headIsDigit] using this
    have hle : decVal (c :: l2) ≤ 255 := isOctet_le h
    simp only [atonLoop, hd, Bool.not_true, Bool.false_eq_true, if_false, hs]
    rw [if_neg (by omega)]

theorem atonLoop_dot (fuel : Nat) (parts : List Nat) (l r : List Char)
    (h : isOctet l = true) (hp : parts.length ≤ 2) :
    atonLoop (fuel + 1) parts (l ++ '.' :: r) = atonLoop fuel (parts ++ [decVal l]) r := by
  have hs := strtoul0_octet l ('.' :: r) h (Or.inr ⟨r, rfl⟩)
  cases l with
  | nil => cases h
  | cons c l2 =>
    have hd : c.isDigit = true := by
      have := isOctet_head_digit h
      simpa [headIsDigit] using this
    have hle : decVal (c :: l2) ≤ 255 := isOctet_le h
    have hs2 : strtoul0 (c :: (l2 ++ '.' :: r)) = (decVal (c :: l2), '.' :: r) := hs
    show atonLoop (fuel + 1) parts (c :: (l2 ++ '.' :: r)) = _
    simp only [atonLoop, hd, Bool.not_true, Bool.false_eq_true, if_false, hs2]
    rw [if_neg (by omega)]
    rw [if_neg (by simp; omega)]

theorem inet_atonL_quad (a b c d : List Char)
    (ha : isOctet a = true) (hb : isOctet b = true) (hc : isOctet c = true)
    (hd : isOctet d = true) :
    (inet_atonL (a ++ '.' :: (b ++ '.' :: (c ++ '.' :: d)))).isSome = true := by
  unfold inet_atonL
  rw [atonLoop_dot 3 [] a _ ha (by simp)]
  simp only [List.nil_append]
  rw [atonLoop_dot 2 [decVal a] b _ hb (by simp)]
  simp only [List.singleton_append]
  rw [atonLoop_dot 1 [decVal a, decVal b] c _ hc (by simp)]
  simp only [List.cons_append, List.singleton_append, List.nil_append]
  rw [atonLoop_last 0 [decVal a, decVal b, decVal c] d hd]
  have hled : decVal d ≤ 255 := isOctet_le hd
  simp [trailOk, maxLast, hled]

theorem splitDots_ne_nil (l : List Char) : splitDots l ≠ [] := by
  cases l with
  | nil => simp [splitDots]
  | cons c rest =>
    simp only [splitDots]
    by_cases hc : (c == '.') = true
    · rw [if_pos hc]
      simp
    · rw [if_neg hc]
      cases hsp : splitDots rest <;> simp

theorem joinDots_splitDots (l : List Char) : joinDots (splitDots l) = l := by
  induction l with
  | nil => rfl
  | cons c rest ih =>
    simp only [splitDots]
    by_cases hc : (c == '.') = true
    · rw [if_pos hc]
      obtain rfl : c = '.' := by simpa using hc
      rcases hsp : splitDots rest with _ | ⟨h, t⟩
      · exact absurd hsp (splitDots_ne_nil rest)
      · rw [hsp] at ih
        show ('.' :: joinDots (h :: t)) = '.' :: rest
        rw [ih]
    · rw [if_neg hc]
      rcases hsp : splitDots rest with _ | ⟨h, t⟩
      · exact absurd hsp (splitDots_ne_nil rest)
      · rw [hsp] at ih
        cases t with
        | nil =>
          simp only [joinDots] at ih ⊢
          rw [ih]
        | cons t1 t2 =>
          simp only [joinDots, List.cons_append] at ih ⊢
          rw [ih]


/-- C3, counterexample to the claim as stated: "127.1" is not a dotted
quad with four octets, yet `socket.inet_aton` accepts it (as 127.0.0.1),
so the validation in `set_custom_dns` accepts and stores it. -/
theorem claim_C3_counterexample :
    inet_aton_valid ("127.1") = true ∧ isDottedQuad ("127.1") = false := ⟨rfl, rfl⟩

/-- C3, amended: the validation accepts exactly what `socket.inet_aton`
accepts, the inet(3) numbers-and-dots notation: every dotted quad with
octets 0 to 255 is accepted, 999.1.1.1 is rejected and 8.8.8.8 accepted
as in the scenarios, but shorter forms such as "127.1" (and octal or
hexadecimal components) are accepted too; an accepted string is stored
under `<kind>_dns` in the settings and saved at once, a rejected one
leads to a reprompt. -/
theorem claim_C3_amended :
    (∀ s : String, isDottedQuad s = true → inet_aton_valid s = true)
    ∧ inet_aton_valid ("8.8.8.8") = true
    ∧ inet_aton_valid ("999.1.1.1") = false
    ∧ (∀ settings dns_type new_dns, inet_aton_valid new_dns = true →
        set_custom_dns_step settings dns_type new_dns =
          some (dictSet settings (dns_type ++ ("_dns")) (JValue.str new_dns),
            save_settings (JValue.obj (dictSet settings (dns_type ++ ("_dns")) (JValue.str new_dns)))))
    ∧ (∀ settings dns_type new_dns, inet_aton_valid new_dns = false →
        set_custom_dns_step settings dns_type new_dns = none) := by
  refine ⟨?_, rfl, rfl, ?_, ?_⟩
  · intro s hq
    have hj := joinDots_splitDots s.data
    unfold isDottedQuad at hq
    rcases hsp : splitDots s.data with _ | ⟨a, _ | ⟨b, _ | ⟨c, _ | ⟨d, _ | ⟨e, t⟩⟩⟩⟩⟩ <;>
        rw [hsp] at hq hj
    · simp at hq
    · simp at hq
    · simp at hq
    · simp at hq
    · simp only [Bool.and_eq_true] at hq
      have hdata : s.data = a ++ '.' :: (b ++ '.' :: (c ++ '.' :: d)) := by
        rw [← hj]
        rfl
      unfold inet_aton_valid
      rw [hdata]
      exact inet_atonL_quad a b c d hq.1.1.1 hq.1.1.2 hq.1.2 hq.2
    · simp at hq
  · intro settings dns_type new_dns hv
    simp [set_custom_dns_step, hv]
  · intro settings dns_type new_dns hv
    simp [set_custom_dns_step, hv]

/-- C3, witness: 8.8.8.8 is accepted and stored as the primary DNS
server. -/
theorem claim_C3_witness :
    inet_aton_valid ("8.8.8.8") = true
    ∧ set_custom_dns_step [] ("primary") ("8.8.8.8") =
        some ([(("primary_dns" : String), JValue.str ("8.8.8.8"))],
          FileState.wellFormed (JValue.obj [(("primary_dns" : String), JValue.str ("8.8.8.8"))])) := by
  have h1 := claim_C3_amended.1 ("8.8.8.8") rfl
  refine ⟨h1, ?_⟩
  rw [claim_C3_amended.2.2.2.1 [] ("primary") ("8.8.8.8") h1]
  with_unfolding_all rfl

/-- C4 (code bug): for an absent certificate the function returns `None`
as claimed, but for every certificate whose `notAfter` parses (here the
well-formed `Jun 01 12:00:00 2030 GMT`), the line
`datetime.datetime.now(datetime.timezone.utc)` raises `AttributeError`
(after `from datetime import datetime` the class has no attribute
`datetime`), which `except (ValueError, KeyError)` does not catch; the
claimed difference `notAfter - now` is never returned. -/
theorem claim_C4_bug :
    strptimeCert ("Jun 01 12:00:00 2030 GMT") = some ⟨2030, 6, 1, 12, 0, 0⟩
    ∧ calculate_certificate_lifetime (some certEx) = Except.error PyError.attributeError
    ∧ calculate_certificate_lifetime none = Except.ok none := ⟨rfl, rfl, rfl⟩

/-- C9 (code bug): when every probe fails the pipeline does complete with
partial results as claimed (second conjunct), but on a host whose
certificate retrieval succeeds with a parseable `notAfter` the pipeline is
aborted by the uncaught `AttributeError` from
`calculate_certificate_lifetime`, so an error inside a probe operation
does terminate the process, contradicting the claim. -/
theorem claim_C9_bug :
    display_server_status ("example.com") ("US") (Except.ok (some 12)) (some certEx)
        (TlsOutcome.success ("TLSv1.3")) = Except.error PyError.attributeError
    ∧ display_server_status ("example.com") ("Unknown") (Except.ok none) none
        TlsOutcome.dnsFailure =
      Except.ok [StatusLine.status ("example.com") ("Unknown") none,
        StatusLine.certUnavailable,
        StatusLine.encryption ("Unknown - Could not resolve hostname")] := ⟨rfl, rfl⟩

theorem isPrefixOf_append {p x y : List Char} (h : List.isPrefixOf p x = true) :
    List.isPrefixOf p (x ++ y) = true := by
  rw [List.isPrefixOf_iff_prefix] at h ⊢
  exact h.trans (List.prefix_append x y)

theorem strStartsWith_append (a b pre : String)
    (h : List.isPrefixOf pre.data a.data = true) :
    strStartsWith (a ++ b) pre = true := by
  unfold strStartsWith
  rw [String.data_append]
  exact isPrefixOf_append h

/-- C5, counterexample to the claim as stated: in the
protocol-not-supported case the handler returns
"None - Server does not support SSL/TLS", which does not begin with
"Unknown - ". -/
theorem claim_C5_counterexample :
    get_encryption_type (TlsOutcome.sslError ("[SSL] PROTOCOL_NOT_SUPPORTED")) =
      ("None - Server does not support SSL/TLS")
    ∧ strStartsWith (get_encryption_type (TlsOutcome.sslError ("[SSL] PROTOCOL_NOT_SUPPORTED")))
        ("Unknown - ") = false := ⟨rfl, rfl⟩

/-- C5, amended: on every failure outcome `get_encryption_type` returns,
without raising, a string beginning "Unknown - " naming the reason,
except in exactly one case: an `ssl.SSLError` whose message contains
`PROTOCOL_NOT_SUPPORTED` yields the fixed string
"None - Server does not support SSL/TLS". -/
theorem claim_C5_amended (o : TlsOutcome) (h : ∀ v, o ≠ TlsOutcome.success v) :
    (strStartsWith (get_encryption_type o) ("Unknown - ") = true
      ∨ get_encryption_type o = ("None - Server does not support SSL/TLS"))
    ∧ (get_encryption_type o = ("None - Server does not support SSL/TLS") →
        ∃ msg, o = TlsOutcome.sslError msg ∧
          listIsInfixOf (String.data ("PROTOCOL_NOT_SUPPORTED")) msg.data = true) := by
  cases o with
  | success v => exact absurd rfl (h v)
  | dnsFailure =>
    refine ⟨Or.inl (by decide), ?_⟩
    intro heq
    exact absurd heq (by decide)
  | sslError msg =>
    cases hsub : listIsInfixOf (String.data ("PROTOCOL_NOT_SUPPORTED")) msg.data
    · have hres : get_encryption_type (TlsOutcome.sslError msg)
          = ("Unknown - SSL Error: ") ++ msg := by
        simp [get_encryption_type, hsub]
      have hpre : strStartsWith (get_encryption_type (TlsOutcome.sslError msg))
          ("Unknown - ") = true := by
        rw [hres]
        exact strStartsWith_append _ _ _ (by decide)
      refine ⟨Or.inl hpre, ?_⟩
      intro heq
      rw [heq] at hpre
      exact absurd hpre (by decide)
    · have hres : get_encryption_type (TlsOutcome.sslError msg)
          = ("None - Server does not support SSL/TLS") := by
        simp [get_encryption_type, hsub]
      exact ⟨Or.inr hres, fun _ => ⟨msg, rfl, hsub⟩⟩
  | osError msg =>
    have hpre : strStartsWith (get_encryption_type (TlsOutcome.osError msg))
        ("Unknown - ") = true :=
      strStartsWith_append _ _ _ (by decide)
    refine ⟨Or.inl hpre, ?_⟩
    intro heq
    rw [heq] at hpre
    exact absurd hpre (by decide)
  | otherError msg =>
    have hpre : strStartsWith (get_encryption_type (TlsOutcome.otherError msg))
        ("Unknown - ") = true :=
      strStartsWith_append _ _ _ (by decide)
    refine ⟨Or.inl hpre, ?_⟩
    intro heq
    rw [heq] at hpre
    exact absurd hpre (by decide)

/-- C5, witness: the DNS-failure outcome yields a diagnostic string of the
stated shape. -/
theorem claim_C5_witness :
    strStartsWith (get_encryption_type TlsOutcome.dnsFailure) ("Unknown - ") = true
    ∨ get_encryption_type TlsOutcome.dnsFailure = ("None - Server does not support SSL/TLS") :=
  (claim_C5_amended TlsOutcome.dnsFailure (fun _v hv => TlsOutcome.noConfusion hv)).1

/-- C7: the stored DNS settings do not influence probing: two settings
dicts that agree on every key other than `primary_dns` and
`secondary_dns` produce the same ping command and the same parsed result
on the same process outcome. -/
theorem claim_C7 (os : OSFamily) (s1 s2 : List (String × JValue)) (hostname : String)
    (returncode : Int) (output : String)
    (h : ∀ k, k ≠ ("primary_dns") → k ≠ ("secondary_dns") →
      lookupKey s1 k = lookupKey s2 k) :
    ping_run os s1 hostname returncode output = ping_run os s2 hostname returncode output := by
  unfold ping_run
  rw [h ("ping_count") (by decide) (by decide)]

/-- C7, witness: settings with primary DNS 8.8.8.8 and with an empty
primary DNS drive `ping` identically. -/
theorem claim_C7_witness :
    ping_run OSFamily.linux
        [(("ping_count" : String), JValue.num 4), (("primary_dns" : String), JValue.str ("8.8.8.8"))]
        ("example.com") 1 ("")
      = ping_run OSFamily.linux
        [(("ping_count" : String), JValue.num 4), (("primary_dns" : String), JValue.str (""))]
        ("example.com") 1 ("") := by
  apply claim_C7
  intro k h1 _
  cases hpc : (("ping_count" : String) == k)
  · simp only [lookupKey, hpc, if_false, beq_eq_false_iff_ne.mpr (Ne.symm h1)]
    rfl
  · simp only [lookupKey, hpc, if_true]

end Pinger
